import Mathlib

/-!
Shallow embedding of the tiny-rollup validator core: the ledger store
(`state_manager/state_manager.rs`), the transaction validator/executor
(`transaction_processor/transaction_processor.rs`) and the sequencer
(`sequencer/sequencer.rs`), together with theorems checking the
specification's claims about them.

Modelling conventions:
* `u64` values are natural numbers; arithmetic that can overflow in the
  source is reduced modulo `2^64` (release-profile wrapping semantics).
* The in-memory `HashMap`s (account cache, nonce tracker) are association
  lists; the list order models the container's (implementation-defined)
  enumeration order, and `HashMap::insert` replaces an existing key in
  place or appends a fresh one.
* The RocksDB handle is a function from keys to stored records; a `put`
  either succeeds or fails, which the environment decides, so `update_account`
  takes that outcome as an explicit boolean (`bincode` round-trips faithfully,
  so serialization is the identity here).
* `std::collections::hash_map::DefaultHasher` is SipHash-1-3 with both keys
  zero, absorbing exactly the byte stream that the `Hash` impls of
  `Pubkey` (`[u8; 32]`, hashed as a slice: usize length prefix then bytes),
  `u64` (8 native-endian bytes, little-endian here) and `Vec<u8>`
  (usize length prefix then bytes) feed it.
* `Transaction::verify()` is external ed25519 signature verification; its
  outcome is carried on the transaction as an oracle bit `verify_ok`.
-/

set_option maxRecDepth 100000

namespace TinyRollup

/-- 2^64, the modulus of `u64` arithmetic. -/
def U64_MOD : Nat := 2 ^ 64

/-- Reduce a natural number to a `u64` value (wrapping semantics). -/
def wrap64 (n : Nat) : Nat := n % U64_MOD

/-- A 32-byte account identifier (`solana_sdk::pubkey::Pubkey`), as its byte list. -/
abbrev Pubkey := List Nat

/-- `Pubkey::from_str_const("11111111111111111111111111111111")`: the system
program id, whose base58 spelling decodes to 32 zero bytes. -/
def systemProgramId : Pubkey := List.replicate 32 0

/-! ### SipHash-1-3 (`std::collections::hash_map::DefaultHasher`) -/

/-- Internal state of the SipHash permutation. -/
structure SipState where
  v0 : Nat
  v1 : Nat
  v2 : Nat
  v3 : Nat

/-- `u64::rotate_left`: rotate the low 64 bits of `x` left by `b` (0 < b < 64).
The outer reduction is a no-op on `u64`-ranged inputs. -/
def rotl64 (x b : Nat) : Nat := wrap64 ((x <<< b) % U64_MOD ||| x >>> (64 - b))

/-- One SipHash round (`SIPROUND`). -/
def sipRound (s : SipState) : SipState :=
  let v0 := wrap64 (s.v0 + s.v1)
  let v1 := rotl64 s.v1 13
  let v1 := v1 ^^^ v0
  let v0 := rotl64 v0 32
  let v2 := wrap64 (s.v2 + s.v3)
  let v3 := rotl64 s.v3 16
  let v3 := v3 ^^^ v2
  let v0 := wrap64 (v0 + v3)
  let v3 := rotl64 v3 21
  let v3 := v3 ^^^ v0
  let v2 := wrap64 (v2 + v1)
  let v1 := rotl64 v1 17
  let v1 := v1 ^^^ v2
  let v2 := rotl64 v2 32
  ⟨v0, v1, v2, v3⟩

/-- Absorb one 64-bit message word with c = 1 compression round. -/
def sipAbsorb (s : SipState) (m : Nat) : SipState :=
  let s := { s with v3 := s.v3 ^^^ m }
  let s := sipRound s
  { s with v0 := s.v0 ^^^ m }

/-- Initial SipHash state for keys k0 = k1 = 0 (`DefaultHasher::new`). -/
def sipInit : SipState :=
  ⟨0x736f6d6570736575, 0x646f72616e646f6d, 0x6c7967656e657261, 0x7465646279746573⟩

/-- Little-endian value of a byte list (first byte is least significant). -/
def leWord (bytes : List Nat) : Nat := bytes.foldr (fun b acc => b + acc * 256) 0

/-- Split a byte stream into complete little-endian 64-bit words plus the
remaining 0–7 tail bytes. -/
def splitWords : List Nat → List Nat × List Nat
  | b0 :: b1 :: b2 :: b3 :: b4 :: b5 :: b6 :: b7 :: rest =>
    let p := splitWords rest
    (leWord [b0, b1, b2, b3, b4, b5, b6, b7] :: p.1, p.2)
  | rest => ([], rest)

/-- SipHash finalization: absorb the last word (byte length in the top byte),
xor 0xff into v2, run d = 3 rounds, and fold the state with xor. -/
def sipFinish (s : SipState) (b : Nat) : Nat :=
  let s := sipAbsorb s b
  let s := { s with v2 := s.v2 ^^^ 0xff }
  let s := sipRound (sipRound (sipRound s))
  s.v0 ^^^ s.v1 ^^^ s.v2 ^^^ s.v3

/-- `DefaultHasher`: hash a byte stream with SipHash-1-3, keys (0, 0).
`finish` packs `(length & 0xff) << 56` above the tail bytes. -/
def sipHash13 (bytes : List Nat) : Nat :=
  let p := splitWords bytes
  let s := p.1.foldl sipAbsorb sipInit
  sipFinish s ((bytes.length % 256) * 2 ^ 56 + leWord p.2)

/-- The `w` little-endian bytes of `n` (`to_le_bytes`, `to_ne_bytes` on LE targets). -/
def natToLEBytes : Nat → Nat → List Nat
  | 0, _ => []
  | w + 1, n => n % 256 :: natToLEBytes w (n / 256)

/-! ### Ledger store (`state_manager.rs`) -/

/-- `L2Account`: one ledger record. -/
structure L2Account where
  lamports : Nat
  data : List Nat
  owner : Pubkey
  executable : Bool
  rent_epoch : Nat
  deriving DecidableEq, Repr

/-- The zero-balance system-owned default materialized for absent accounts. -/
def defaultAccount : L2Account :=
  { lamports := 0, data := [], owner := systemProgramId
    executable := false, rent_epoch := 0 }

/-- `StateManager`: in-memory cache, RocksDB handle, and running state root. -/
structure StateManager where
  accounts : List (Pubkey × L2Account)
  db : Pubkey → Option L2Account
  state_root : List Nat

/-- `StateManager::new(db_path)`: fresh empty cache and zero root over
whatever the durable store at that path already holds. -/
def StateManager.new (db : Pubkey → Option L2Account) : StateManager :=
  { accounts := [], db := db, state_root := List.replicate 32 0 }

/-- Association-list lookup (`HashMap::get`). -/
def alist_find {β : Type} : List (Pubkey × β) → Pubkey → Option β
  | [], _ => none
  | (k', v) :: rest, k => if k' = k then some v else alist_find rest k

/-- Association-list insert (`HashMap::insert`): replace in place, else append. -/
def alist_insert {β : Type} : List (Pubkey × β) → Pubkey → β → List (Pubkey × β)
  | [], k, v => [(k, v)]
  | (k', v') :: rest, k, v =>
    if k' = k then (k, v) :: rest else (k', v') :: alist_insert rest k v

/-- Bytes fed to the hasher by `pubkey.hash(...)`: the derived `Hash` on
`Pubkey([u8; 32])` hashes the array as a slice, a usize length prefix
followed by the raw bytes. -/
def hashBytesOfPubkey (pk : Pubkey) : List Nat := natToLEBytes 8 pk.length ++ pk

/-- Bytes fed to the hasher by `account.lamports.hash(...)` (`write_u64`). -/
def hashBytesOfU64 (n : Nat) : List Nat := natToLEBytes 8 n

/-- Bytes fed to the hasher by `account.data.hash(...)` (`Vec<u8>` hashes as a
slice: usize length prefix then the bytes). -/
def hashBytesOfVecU8 (d : List Nat) : List Nat := natToLEBytes 8 d.length ++ d

/-- The hasher input contributed by one cache entry in `update_state_root`'s
loop: pubkey, lamports, then data. -/
def accountHashStream (e : Pubkey × L2Account) : List Nat :=
  hashBytesOfPubkey e.1 ++ hashBytesOfU64 e.2.lamports ++ hashBytesOfVecU8 e.2.data

/-- `update_state_root`: one `DefaultHasher` sequentially absorbs every cache
entry in the container's enumeration order; the 64-bit result is placed in
the first 8 bytes of the 32-byte root, the rest left zero. -/
def computeStateRoot (accounts : List (Pubkey × L2Account)) : List Nat :=
  natToLEBytes 8 (sipHash13 (accounts.map accountHashStream).flatten) ++ List.replicate 24 0

/-- `update_state_root` as a state transformer. -/
def update_state_root (s : StateManager) : StateManager :=
  { s with state_root := computeStateRoot s.accounts }

/-- `get_state_root`. -/
def get_state_root (s : StateManager) : List Nat := s.state_root

/-- Errors of the executor and store, one constructor per `anyhow`/propagated
failure in the source, plus `replayedNonce` from the spec's taxonomy (which
the source never produces). -/
inductive TxError where
  | invalidSignature
  | noSignature
  | noFeePayer
  | insufficientFunds
  | replayedNonce
  | persistenceFailure
  | panicIndex
  deriving DecidableEq, Repr

/-- `get_account`: read-through — serve from the cache, else read the durable
layer and populate the cache; total miss is `none`. Returns the (possibly
cache-populated) store alongside the result. -/
def get_account (s : StateManager) (pk : Pubkey) : Option L2Account × StateManager :=
  match alist_find s.accounts pk with
  | some account => (some account, s)
  | none =>
    match s.db pk with
    | some account =>
      (some account, { s with accounts := alist_insert s.accounts pk account })
    | none => (none, s)

/-- `update_account`: insert into the cache first, then `bincode::serialize`
and `db.put` (outcome `putOk`), then recompute the root. A failed put is
propagated by `?` after the cache is already updated. -/
def update_account (putOk : Bool) (s : StateManager) (pk : Pubkey) (account : L2Account) :
    StateManager × Except TxError Unit :=
  let s := { s with accounts := alist_insert s.accounts pk account }
  if putOk then
    let s := { s with db := fun k => if k = pk then some account else s.db k }
    (update_state_root s, Except.ok ())
  else
    (s, Except.error TxError.persistenceFailure)

/-- The record stored for `pk` as the caller sees it: the cache is
authoritative for the latest writes, the durable layer is the fallback. -/
def stored_account (s : StateManager) (pk : Pubkey) : Option L2Account :=
  match alist_find s.accounts pk with
  | some account => some account
  | none => s.db pk

/-! ### Transaction executor (`transaction_processor.rs`) -/

/-- `solana_sdk` compiled instruction: program id index, account indices, data. -/
structure CompiledInstruction where
  program_id_index : Nat
  accounts : List Nat
  data : List Nat
  deriving DecidableEq, Repr

/-- `solana_sdk` message: account keys and instructions (fields the source reads). -/
structure Message where
  account_keys : List Pubkey
  instructions : List CompiledInstruction
  deriving DecidableEq, Repr

/-- `solana_sdk::transaction::Transaction`, with the outcome of its external
ed25519 `verify()` carried as an oracle bit. -/
structure Transaction where
  signatures : List String
  message : Message
  verify_ok : Bool
  deriving DecidableEq, Repr

/-- `L2Transaction`: the canonical domain form of a decoded transaction. -/
structure L2Transaction where
  signature : String
  from_ : Pubkey
  to_ : Option Pubkey
  lamports : Nat
  instruction_data : List Nat
  nonce : Nat
  deriving DecidableEq, Repr

/-- `TransactionProcessor`: the shared ledger store plus the nonce tracker. -/
structure TransactionProcessor where
  state_manager : StateManager
  nonce_tracker : List (Pubkey × Nat)

/-- `TransactionProcessor::new`. -/
def TransactionProcessor.new (sm : StateManager) : TransactionProcessor :=
  { state_manager := sm, nonce_tracker := [] }

/-- `validate_transaction`: reject on a bad signature; the nonce block only
*reads* the fee payer's tracked nonce — the check itself is a TODO in the
source, so every signature-valid transaction passes. -/
def validate_transaction (p : TransactionProcessor) (tx : Transaction) :
    Except TxError Unit :=
  if tx.verify_ok = false then Except.error TxError.invalidSignature
  else
    match tx.message.account_keys.get? 0 with
    | some fee_payer =>
      let _current_nonce := (alist_find p.nonce_tracker fee_payer).getD 0
      Except.ok ()
    | none => Except.ok ()

/-- The fall-through result of `convert_to_l2_transaction` for anything that is
not a decodable system-program transfer. -/
def defaultL2 (signature : String) (fee_payer : Pubkey) : L2Transaction :=
  { signature := signature, from_ := fee_payer, to_ := none, lamports := 0
    instruction_data := [], nonce := 0 }

/-- `convert_to_l2_transaction`: decode a system-program transfer (instruction
type 2, lamports in data bytes 4..12, recipient from account index 1); any other
shape falls through to a non-transfer `L2Transaction`. The unguarded byte
indexing and the `.unwrap()` on the recipient key panic in the source; those
panics are the `panicIndex` error here. The declared nonce is left 0 (a TODO
in the source). -/
def convert_to_l2_transaction (tx : Transaction) : Except TxError L2Transaction :=
  match tx.signatures.get? 0 with
  | none => Except.error TxError.noSignature
  | some signature =>
    match tx.message.account_keys.get? 0 with
    | none => Except.error TxError.noFeePayer
    | some fee_payer =>
      match tx.message.instructions.get? 0 with
      | none => Except.ok (defaultL2 signature fee_payer)
      | some instruction =>
        if instruction.program_id_index = 0 then
          if 4 ≤ instruction.data.length then
            if leWord (instruction.data.take 4) = 2 then
              match (instruction.data.drop 4).get? 0, (instruction.data.drop 4).get? 1,
                    (instruction.data.drop 4).get? 2, (instruction.data.drop 4).get? 3,
                    (instruction.data.drop 4).get? 4, (instruction.data.drop 4).get? 5,
                    (instruction.data.drop 4).get? 6, (instruction.data.drop 4).get? 7 with
              | some b4, some b5, some b6, some b7, some b8, some b9, some b10, some b11 =>
                let lamports := leWord [b4, b5, b6, b7, b8, b9, b10, b11]
                if 1 < instruction.accounts.length then
                  match tx.message.account_keys.get? (instruction.accounts.getD 1 0) with
                  | some to_pubkey =>
                    Except.ok { signature := signature, from_ := fee_payer
                                to_ := some to_pubkey, lamports := lamports
                                instruction_data := instruction.data, nonce := 0 }
                  | none => Except.error TxError.panicIndex
                else
                  Except.ok { signature := signature, from_ := fee_payer
                              to_ := none, lamports := lamports
                              instruction_data := instruction.data, nonce := 0 }
              | _, _, _, _, _, _, _, _ => Except.error TxError.panicIndex
            else Except.ok (defaultL2 signature fee_payer)
          else Except.ok (defaultL2 signature fee_payer)
        else Except.ok (defaultL2 signature fee_payer)

/-- `transfer_lamports`: load the sender (defaulting to the zero account),
require sufficient balance, load the recipient *from the same pre-transfer
store*, debit and credit locally, then write both records back in order. -/
def transfer_lamports (s0 : StateManager) (from_ to_ : Pubkey) (amount : Nat) :
    StateManager × Except TxError Unit :=
  let g1 := get_account s0 from_
  let from_account := g1.1.getD defaultAccount
  if from_account.lamports < amount then
    (g1.2, Except.error TxError.insufficientFunds)
  else
    let g2 := get_account g1.2 to_
    let to_account := g2.1.getD defaultAccount
    let from_account := { from_account with lamports := from_account.lamports - amount }
    let to_account := { to_account with lamports := wrap64 (to_account.lamports + amount) }
    let u1 := update_account true g2.2 from_ from_account
    match u1.2 with
    | Except.error e => (u1.1, Except.error e)
    | Except.ok _ => update_account true u1.1 to_ to_account

/-- `execute_l2_transaction`: run the transfer when a recipient is present
(other payloads only log), then set the sender's tracked nonce to the old
value plus one. A transfer failure propagates before the nonce update. -/
def execute_l2_transaction (p : TransactionProcessor) (tx : L2Transaction) :
    TransactionProcessor × Except TxError Unit :=
  match tx.to_ with
  | some to_pubkey =>
    let t := transfer_lamports p.state_manager tx.from_ to_pubkey tx.lamports
    match t.2 with
    | Except.error e => ({ p with state_manager := t.1 }, Except.error e)
    | Except.ok _ =>
      let current_nonce := (alist_find p.nonce_tracker tx.from_).getD 0
      ({ p with
          state_manager := t.1
          nonce_tracker := alist_insert p.nonce_tracker tx.from_ (wrap64 (current_nonce + 1)) },
        Except.ok ())
  | none =>
    let current_nonce := (alist_find p.nonce_tracker tx.from_).getD 0
    ({ p with
        nonce_tracker := alist_insert p.nonce_tracker tx.from_ (wrap64 (current_nonce + 1)) },
      Except.ok ())

/-- `process_transaction`: validate, convert, execute, return the signature. -/
def process_transaction (p : TransactionProcessor) (tx : Transaction) :
    TransactionProcessor × Except TxError String :=
  match validate_transaction p tx with
  | Except.error e => (p, Except.error e)
  | Except.ok _ =>
    match convert_to_l2_transaction tx with
    | Except.error e => (p, Except.error e)
    | Except.ok l2_tx =>
      let r := execute_l2_transaction p l2_tx
      match r.2 with
      | Except.error e => (r.1, Except.error e)
      | Except.ok _ => (r.1, Except.ok l2_tx.signature)

/-! ### Sequencer (`sequencer.rs`) -/

/-- `add_transaction`: push onto the pending `Vec` — unconditionally, with no
capacity check and no failure path. -/
def add_transaction (pending_txs : List Transaction) (tx : Transaction) : List Transaction :=
  pending_txs ++ [tx]

/-- `create_batch`: no batch when the queue is empty; otherwise drain the
oldest `min(len, 100)` entries from the front. -/
def create_batch (pending : List Transaction) :
    Option (List Transaction) × List Transaction :=
  if pending.isEmpty then (none, pending)
  else
    let batch_size := min pending.length 100
    (some (pending.take batch_size), pending.drop batch_size)

/-- Repeated flush ticks until the queue is empty: the sequence of batches
`create_batch` emits. -/
def create_batches (pending : List Transaction) : List (List Transaction) :=
  if h : pending.isEmpty then []
  else
    pending.take (min pending.length 100) ::
      create_batches (pending.drop (min pending.length 100))
termination_by pending.length
decreasing_by
  simp only [List.length_drop]
  have hp : 0 < pending.length := by
    cases pending with
    | nil => simp at h
    | cons a t => simp
  omega

/-- The batch sizes produced by draining a queue of `n` transactions. -/
def batch_sizes (n : Nat) : List Nat :=
  if n = 0 then [] else min n 100 :: batch_sizes (n - min n 100)
termination_by n
decreasing_by omega

/-! ### Basic lemmas about the store -/

theorem alist_find_insert {β : Type} (l : List (Pubkey × β)) (k : Pubkey) (v : β)
    (a : Pubkey) :
    alist_find (alist_insert l k v) a = if k = a then some v else alist_find l a := by
  induction l with
  | nil => simp [alist_find, alist_insert]
  | cons e rest ih =>
    obtain ⟨k', v'⟩ := e
    by_cases hk : k' = k
    · subst hk
      simp only [alist_insert, if_pos rfl, alist_find]
      by_cases ha : k' = a <;> simp [ha]
    · simp only [alist_insert, if_neg hk, alist_find]
      by_cases ha : k' = a
      · subst ha
        simp [Ne.symm hk]
      · simp [ha, ih]

theorem get_account_fst (s : StateManager) (pk : Pubkey) :
    (get_account s pk).1 = stored_account s pk := by
  unfold get_account stored_account
  cases h1 : alist_find s.accounts pk with
  | some a => rfl
  | none => cases h2 : s.db pk <;> rfl

theorem get_account_view (s : StateManager) (pk k : Pubkey) :
    stored_account (get_account s pk).2 k = stored_account s k := by
  unfold get_account
  cases h1 : alist_find s.accounts pk with
  | some a => rfl
  | none =>
    cases h2 : s.db pk with
    | none => rfl
    | some a =>
      simp only [stored_account, alist_find_insert]
      by_cases hk : pk = k
      · subst hk
        simp [h1, h2]
      · simp [hk]

theorem get_account_root (s : StateManager) (pk : Pubkey) :
    (get_account s pk).2.state_root = s.state_root := by
  unfold get_account
  cases h1 : alist_find s.accounts pk with
  | some a => rfl
  | none => cases h2 : s.db pk <;> rfl

theorem get_account_db (s : StateManager) (pk : Pubkey) :
    (get_account s pk).2.db = s.db := by
  unfold get_account
  cases h1 : alist_find s.accounts pk with
  | some a => rfl
  | none => cases h2 : s.db pk <;> rfl

theorem update_account_true_ok (s : StateManager) (pk : Pubkey) (a : L2Account) :
    (update_account true s pk a).2 = Except.ok () := rfl

theorem update_account_view (s : StateManager) (pk : Pubkey) (a : L2Account)
    (k : Pubkey) :
    stored_account (update_account true s pk a).1 k =
      if pk = k then some a else stored_account s k := by
  simp only [update_account, if_pos, update_state_root]
  by_cases hk : pk = k
  · subst hk
    simp [stored_account, alist_find_insert]
  · simp only [stored_account, alist_find_insert, if_neg hk]
    have : ¬ k = pk := fun h => hk h.symm
    simp [this]

/-! ### Bounds on the SipHash output -/

theorem U64_MOD_pos : 0 < U64_MOD := by norm_num [U64_MOD]

theorem wrap64_lt (n : Nat) : wrap64 n < U64_MOD := Nat.mod_lt _ U64_MOD_pos

theorem rotl64_lt (x b : Nat) : rotl64 x b < U64_MOD := wrap64_lt _

theorem xor_lt_u64 {a b : Nat} (ha : a < U64_MOD) (hb : b < U64_MOD) :
    a ^^^ b < U64_MOD := by
  have : a ^^^ b < 2 ^ 64 :=
    Nat.xor_lt_two_pow (by simpa [U64_MOD] using ha) (by simpa [U64_MOD] using hb)
  simpa [U64_MOD] using this

theorem sipRound_lt (s : SipState) :
    (sipRound s).v0 < U64_MOD ∧ (sipRound s).v1 < U64_MOD ∧
      (sipRound s).v2 < U64_MOD ∧ (sipRound s).v3 < U64_MOD := by
  refine ⟨wrap64_lt _, xor_lt_u64 (rotl64_lt _ _) (wrap64_lt _), rotl64_lt _ _,
    xor_lt_u64 (rotl64_lt _ _) (wrap64_lt _)⟩

theorem sipFinish_lt (s : SipState) (b : Nat) : sipFinish s b < U64_MOD := by
  unfold sipFinish
  obtain ⟨h0, h1, h2, h3⟩ := sipRound_lt (sipRound (sipRound { sipAbsorb s b with
    v2 := (sipAbsorb s b).v2 ^^^ 0xff }))
  exact xor_lt_u64 (xor_lt_u64 (xor_lt_u64 h0 h1) h2) h3

theorem sipHash13_lt (bytes : List Nat) : sipHash13 bytes < U64_MOD :=
  sipFinish_lt _ _

theorem natToLEBytes_length (w : Nat) : ∀ n, (natToLEBytes w n).length = w := by
  induction w with
  | zero => intro n; rfl
  | succ w ih => intro n; simp [natToLEBytes, ih]

theorem replicate_getD (n j : Nat) : (List.replicate n (0 : Nat)).getD j 0 = 0 := by
  induction n generalizing j with
  | zero => simp [List.getD]
  | succ n ih =>
    cases j with
    | zero => rfl
    | succ j => simpa [List.replicate, List.getD] using ih j

theorem tail24_zero (hsh : Nat) :
    ∀ i, 8 ≤ i → (natToLEBytes 8 hsh ++ List.replicate 24 0).getD i 0 = 0 := by
  intro i hi
  rw [List.getD_append_right _ _ _ _ (by rw [natToLEBytes_length]; exact hi)]
  rw [natToLEBytes_length]
  exact replicate_getD 24 (i - 8)

/-! ### Reachable ledger-store states -/

/-- The states of the ledger store: freshly opened over arbitrary durable
content, or the result of a `get_account` or `update_account` (with either
put outcome) on a reachable state. -/
inductive Reachable : StateManager → Prop
  | new : ∀ db, Reachable (StateManager.new db)
  | get : ∀ s pk, Reachable s → Reachable (get_account s pk).2
  | update : ∀ putOk s pk a, Reachable s → Reachable (update_account putOk s pk a).1

/-! ### Concrete inputs used by evaluations -/

def pkA : Pubkey := List.replicate 32 1

def pkB : Pubkey := List.replicate 32 2

def acctA : L2Account :=
  { lamports := 100, data := [], owner := systemProgramId
    executable := false, rent_epoch := 0 }

def acctB : L2Account :=
  { lamports := 7, data := [3, 4], owner := systemProgramId
    executable := false, rent_epoch := 0 }

def smInit : StateManager := StateManager.new (fun _ => none)

/-- The ledger after updating A then B, from an empty store. -/
def sAB : StateManager := (update_account true (update_account true smInit pkA acctA).1 pkB acctB).1

/-- The ledger after updating B then A, from an empty store. -/
def sBA : StateManager := (update_account true (update_account true smInit pkB acctB).1 pkA acctA).1

/-! ### Executor lemmas -/

theorem validate_transaction_ok (p : TransactionProcessor) (tx : Transaction)
    (h : tx.verify_ok = true) : validate_transaction p tx = Except.ok () := by
  unfold validate_transaction
  rw [if_neg (by simp [h])]
  cases tx.message.account_keys.get? 0 <;> rfl

theorem transfer_insufficient (s : StateManager) (f t : Pubkey) (amt : Nat)
    (hbal : ((stored_account s f).getD defaultAccount).lamports < amt) :
    (transfer_lamports s f t amt).2 = Except.error TxError.insufficientFunds ∧
    ∀ k, stored_account (transfer_lamports s f t amt).1 k = stored_account s k := by
  simp only [transfer_lamports]
  rw [get_account_fst, if_pos hbal]
  exact ⟨rfl, fun k => get_account_view s f k⟩

/-- After `execute_l2_transaction` the nonce tracker is either untouched (the
transfer failed) or the sender's entry was set to its old value plus one,
wrapped. -/
theorem execute_tracker (p : TransactionProcessor) (l2 : L2Transaction) :
    ((execute_l2_transaction p l2).1.nonce_tracker = p.nonce_tracker ∧
      ∃ e, (execute_l2_transaction p l2).2 = Except.error e) ∨
    ((execute_l2_transaction p l2).2 = Except.ok () ∧
      (execute_l2_transaction p l2).1.nonce_tracker =
        alist_insert p.nonce_tracker l2.from_
          (wrap64 ((alist_find p.nonce_tracker l2.from_).getD 0 + 1))) := by
  unfold execute_l2_transaction
  cases hto : l2.to_ with
  | none => exact Or.inr ⟨rfl, rfl⟩
  | some t =>
    dsimp only
    cases ht : (transfer_lamports p.state_manager l2.from_ t l2.lamports).2 with
    | error e => exact Or.inl ⟨rfl, e, rfl⟩
    | ok u => exact Or.inr ⟨rfl, rfl⟩

/-- After `process_transaction` the nonce tracker is either untouched (the
transaction was rejected) or the sender's entry was set to its old value
plus one, wrapped (the transaction was accepted). -/
theorem process_tracker_cases (p : TransactionProcessor) (tx : Transaction) :
    ((process_transaction p tx).1.nonce_tracker = p.nonce_tracker ∧
      ∃ e, (process_transaction p tx).2 = Except.error e) ∨
    (∃ l2, convert_to_l2_transaction tx = Except.ok l2 ∧
      (process_transaction p tx).2 = Except.ok l2.signature ∧
      (process_transaction p tx).1.nonce_tracker =
        alist_insert p.nonce_tracker l2.from_
          (wrap64 ((alist_find p.nonce_tracker l2.from_).getD 0 + 1))) := by
  unfold process_transaction
  cases hv : validate_transaction p tx with
  | error e => exact Or.inl ⟨rfl, e, rfl⟩
  | ok u =>
    cases hc : convert_to_l2_transaction tx with
    | error e => exact Or.inl ⟨rfl, e, rfl⟩
    | ok l2 =>
      dsimp only
      rcases execute_tracker p l2 with ⟨hkeep, e, herr⟩ | ⟨hok, hins⟩
      · rw [herr]
        exact Or.inl ⟨hkeep, e, rfl⟩
      · rw [hok]
        exact Or.inr ⟨l2, rfl, rfl, hins⟩

/-! ### Concrete inputs used by evaluations (continued) -/

/-- A cache-only record differing from `acctA` in its balance. -/
def acctA2 : L2Account := { acctA with lamports := 40 }

/-- A store whose durable layer already holds `acctA` under `pkA`. -/
def sC5 : StateManager :=
  { accounts := [], db := fun k => if k = pkA then some acctA else none
    state_root := List.replicate 32 0 }

/-- A signature-valid transaction with no instructions from `pkA`. -/
def txA : Transaction :=
  { signatures := ["sigA"], message := { account_keys := [pkA], instructions := [] }
    verify_ok := true }

/-- The queue of 250 pending transactions. -/
def txs250 : List Transaction := List.replicate 250 txA

/-- What `txA` converts to: a non-transfer `L2Transaction` with nonce 0. -/
def l2A : L2Transaction := defaultL2 "sigA" pkA

/-- A fresh processor over an empty store. -/
def p0 : TransactionProcessor := TransactionProcessor.new smInit

/-- One `process_transaction` call on `txA`, as a state transformer. -/
def stepA (p : TransactionProcessor) : TransactionProcessor :=
  (process_transaction p txA).1

/-- A store whose cache holds `acctA` (100 lamports) under `pkA`. -/
def smA : StateManager :=
  { accounts := [(pkA, acctA)], db := fun _ => none
    state_root := List.replicate 32 0 }

/-- A processor over `smA`. -/
def p4 : TransactionProcessor := TransactionProcessor.new smA

/-- A signature-valid system transfer of 1000 lamports from `pkA` to `pkB`:
instruction type 2 (`[2,0,0,0]` little-endian) then the amount
(`[232,3,0,0,0,0,0,0]` = 1000 little-endian). -/
def tx4 : Transaction :=
  { signatures := ["s1"]
    message :=
      { account_keys := [pkA, pkB]
        instructions := [{ program_id_index := 0, accounts := [0, 1]
                           data := [2, 0, 0, 0, 232, 3, 0, 0, 0, 0, 0, 0] }] }
    verify_ok := true }

/-- What `tx4` converts to. -/
def l2tx4 : L2Transaction :=
  { signature := "s1", from_ := pkA, to_ := some pkB, lamports := 1000
    instruction_data := [2, 0, 0, 0, 232, 3, 0, 0, 0, 0, 0, 0], nonce := 0 }

/-- A store holding 10 lamports under `pkA`. -/
def smSelf : StateManager :=
  { accounts := [(pkA, { acctA with lamports := 10 })], db := fun _ => none
    state_root := List.replicate 32 0 }

/-- A store holding `2^63` lamports under `pkA`. -/
def smBig : StateManager :=
  { accounts := [(pkA, { acctA with lamports := 2 ^ 63 })], db := fun _ => none
    state_root := List.replicate 32 0 }

/-- C2: the claim that the state commitment is the same for any two ledgers
holding the same set of (id, record) pairs, regardless of enumeration or
insertion order, fails on the code: `update_state_root` feeds one sequential
(non-commutative) `DefaultHasher` with the cache entries in the container's
enumeration order, so inserting the same two accounts in the two possible
orders yields two different digests. -/
theorem c2_commitment_order_dependent :
    sAB.accounts = [(pkA, acctA), (pkB, acctB)] ∧
    sBA.accounts = [(pkB, acctB), (pkA, acctA)] ∧
    List.Perm sAB.accounts sBA.accounts ∧
    get_state_root sAB ≠ get_state_root sBA := by
  have h1 : sAB.accounts = [(pkA, acctA), (pkB, acctB)] := by decide
  have h2 : sBA.accounts = [(pkB, acctB), (pkA, acctA)] := by decide
  refine ⟨h1, h2, ?_, by decide⟩
  rw [h1, h2]
  exact List.Perm.swap (pkB, acctB) (pkA, acctA) []

/-- C5: the claim that `update_account` is atomic across the cache and the
durable layer fails on the code: the cache is updated before the durable put,
so a failed put returns `PersistenceFailure` with the cache already holding
the new record while the durable layer still holds the old one. -/
theorem c5_failed_put_cache_ahead :
    (update_account false sC5 pkA acctA2).2 = Except.error TxError.persistenceFailure ∧
    alist_find (update_account false sC5 pkA acctA2).1.accounts pkA = some acctA2 ∧
    (update_account false sC5 pkA acctA2).1.db pkA = some acctA ∧
    acctA2 ≠ acctA := by
  refine ⟨rfl, by decide, by decide, by decide⟩

/-- C6: the pending queue has no capacity at all: `add_transaction` cannot
fail (its result type has no error case), it always appends, and draining
never happens on enqueue, so the queue grows without bound — the claimed
`BackpressureExceeded` rejection at capacity does not exist in the code. -/
theorem c6_queue_unbounded :
    (∀ (q : List Transaction) (tx : Transaction),
      (add_transaction q tx).length = q.length + 1) ∧
    (∀ txs : List Transaction, (txs.foldl add_transaction []).length = txs.length) := by
  have hgen : ∀ (txs q : List Transaction),
      (txs.foldl add_transaction q).length = q.length + txs.length := by
    intro txs
    induction txs with
    | nil => intro q; simp
    | cons t ts ih =>
      intro q
      simp only [List.foldl_cons, ih, add_transaction]
      simp
      omega
  constructor
  · intro q tx
    simp [add_transaction]
  · intro txs
    simpa using hgen txs []

theorem length_pos_of_not_isEmpty {α : Type} {l : List α} (h : ¬ l.isEmpty = true) :
    0 < l.length := by
  cases l with
  | nil => simp at h
  | cons a t => simp

theorem create_batches_flatten (l : List Transaction) :
    (create_batches l).flatten = l := by
  by_cases h : l.isEmpty = true
  · have hl : l = [] := List.isEmpty_iff.mp h
    subst hl
    rw [create_batches]
    simp
  · rw [create_batches, dif_neg h, List.flatten_cons,
      create_batches_flatten (l.drop (min l.length 100)), List.take_append_drop]
termination_by l.length
decreasing_by
  simp only [List.length_drop]
  have hp : 0 < l.length := length_pos_of_not_isEmpty h
  omega

theorem create_batches_sizes (l : List Transaction) :
    (create_batches l).map List.length = batch_sizes l.length := by
  by_cases h : l.isEmpty = true
  · have hl : l = [] := List.isEmpty_iff.mp h
    subst hl
    rw [create_batches, batch_sizes]
    simp
  · have hp : 0 < l.length := length_pos_of_not_isEmpty h
    rw [create_batches, dif_neg h, batch_sizes, if_neg (by omega)]
    rw [List.map_cons, create_batches_sizes (l.drop (min l.length 100))]
    simp only [List.length_take, List.length_drop]
    congr 1
    omega
termination_by l.length
decreasing_by
  simp only [List.length_drop]
  have hp : 0 < l.length := length_pos_of_not_isEmpty h
  omega

theorem batch_sizes_250 : batch_sizes 250 = [100, 100, 50] := by
  rw [batch_sizes]
  norm_num
  rw [batch_sizes]
  norm_num
  rw [batch_sizes]
  norm_num
  rw [batch_sizes]
  norm_num

/-- C7: FIFO batching — draining the queue by repeated flush ticks with
maximum batch size 100 emits batches whose concatenation is exactly the
original enqueue order, and a 250-deep queue drains as 100, 100, 50. -/
theorem c7_fifo_batching (txs : List Transaction) :
    (create_batches txs).flatten = txs ∧
    (txs.length = 250 → (create_batches txs).map List.length = [100, 100, 50]) :=
  ⟨create_batches_flatten txs, fun h => by
    rw [create_batches_sizes, h, batch_sizes_250]⟩

/-- C7 witness: the 250-transaction queue drains as batches of 100, 100, 50
whose concatenation is the original queue. -/
theorem c7_witness :
    (create_batches txs250).map List.length = [100, 100, 50] ∧
    (create_batches txs250).flatten = txs250 :=
  ⟨(c7_fifo_batching txs250).2 (by rw [txs250, List.length_replicate]),
    (c7_fifo_batching txs250).1⟩

/-- C10: on every reachable store state the root is the 8 little-endian bytes
of a 64-bit SipHash value followed by 24 zero bytes, so `get_state_root`'s
last 24 bytes are always zero and the commitment ranges over at most `2^64`
distinct values. -/
theorem c10_state_root_low64 (s : StateManager) (h : Reachable s) :
    ∃ hsh, hsh < U64_MOD ∧
      get_state_root s = natToLEBytes 8 hsh ++ List.replicate 24 0 ∧
      ∀ i, 8 ≤ i → (get_state_root s).getD i 0 = 0 := by
  induction h with
  | new db =>
    have hroot : get_state_root (StateManager.new db) =
        natToLEBytes 8 0 ++ List.replicate 24 0 := rfl
    refine ⟨0, U64_MOD_pos, hroot, ?_⟩
    intro i hi
    rw [hroot]
    exact tail24_zero 0 i hi
  | get s pk hr ih =>
    have hroot : get_state_root (get_account s pk).2 = get_state_root s :=
      get_account_root s pk
    rw [hroot]
    exact ih
  | update putOk s pk a hr ih =>
    cases putOk with
    | false =>
      have hroot : get_state_root (update_account false s pk a).1 = get_state_root s := rfl
      rw [hroot]
      exact ih
    | true =>
      refine ⟨sipHash13 ((alist_insert s.accounts pk a).map accountHashStream).flatten,
        sipHash13_lt _, rfl, ?_⟩
      intro i hi
      exact tail24_zero _ i hi

/-- C10 witness: at the freshly opened store the root is all zeros, and in
particular byte 9 (and every byte past the first 8) is zero. -/
theorem c10_witness :
    (get_state_root (StateManager.new (fun _ => none))).getD 9 0 = 0 := by
  obtain ⟨hsh, -, -, htail⟩ :=
    c10_state_root_low64 (StateManager.new (fun _ => none)) (Reachable.new _)
  exact htail 9 (by norm_num)

/-- C1: the claim that a transaction whose declared nonce differs from the
tracked nonce plus one is rejected with `ReplayedNonce` fails on the code: the
nonce check in `validate_transaction` is an unfinished TODO, so `txA` — whose
converted nonce 0 differs from tracked+1 = 1 — is accepted, its signature is
returned, and the tracker entry for the sender is mutated to 1. -/
theorem c1_nonce_mismatch_accepted :
    convert_to_l2_transaction txA = Except.ok l2A ∧
    l2A.nonce ≠ (alist_find p0.nonce_tracker pkA).getD 0 + 1 ∧
    (process_transaction p0 txA).2 = Except.ok "sigA" ∧
    alist_find (process_transaction p0 txA).1.nonce_tracker pkA = some 1 := by
  refine ⟨rfl, by decide, rfl, by decide⟩

/-- C3: the claim that every accepted transfer conserves the sum of the
sender's and the recipient's balances fails on the code for a self-transfer:
both records are read from the same pre-transfer snapshot, the debit is
written first and the credit overwrites it, so transferring 5 of 10 lamports
from `pkA` to itself is accepted and leaves the account at 15 lamports —
the transfer minted its amount. -/
theorem c3_self_transfer_mints :
    (transfer_lamports smSelf pkA pkA 5).2 = Except.ok () ∧
    (stored_account smSelf pkA).map L2Account.lamports = some 10 ∧
    (stored_account (transfer_lamports smSelf pkA pkA 5).1 pkA).map L2Account.lamports
      = some 15 := by
  refine ⟨rfl, by decide, by decide⟩

/-- C4: a transfer whose sender balance is below the amount is rejected by
`process_transaction` with `InsufficientFunds`, and every stored account
record — in particular the sender's and the recipient's — is unchanged. -/
theorem c4_insufficient_funds_atomic (p : TransactionProcessor) (tx : Transaction)
    (l2 : L2Transaction) (to_pk : Pubkey)
    (hsig : tx.verify_ok = true)
    (hconv : convert_to_l2_transaction tx = Except.ok l2)
    (hto : l2.to_ = some to_pk)
    (hbal : ((stored_account p.state_manager l2.from_).getD defaultAccount).lamports
      < l2.lamports) :
    (process_transaction p tx).2 = Except.error TxError.insufficientFunds ∧
    ∀ k, stored_account (process_transaction p tx).1.state_manager k =
      stored_account p.state_manager k := by
  have hval := validate_transaction_ok p tx hsig
  obtain ⟨herr, hview⟩ :=
    transfer_insufficient p.state_manager l2.from_ to_pk l2.lamports hbal
  unfold process_transaction
  rw [hval, hconv]
  dsimp only
  unfold execute_l2_transaction
  rw [hto]
  dsimp only
  rw [herr]
  exact ⟨rfl, hview⟩

/-- C4 witness: processing a 1000-lamport transfer from an account holding
100 lamports fails with `InsufficientFunds` and leaves both the sender's and
the recipient's stored records unchanged. -/
theorem c4_witness :
    (process_transaction p4 tx4).2 = Except.error TxError.insufficientFunds ∧
    stored_account (process_transaction p4 tx4).1.state_manager pkA =
      stored_account p4.state_manager pkA ∧
    stored_account (process_transaction p4 tx4).1.state_manager pkB =
      stored_account p4.state_manager pkB := by
  obtain ⟨herr, hview⟩ :=
    c4_insufficient_funds_atomic p4 tx4 l2tx4 pkB rfl rfl rfl (by decide)
  exact ⟨herr, hview pkA, hview pkB⟩

/-- C8 (amended): tracker entries are never removed; every accepted
transaction sets the sender's entry to the old tracked value plus one reduced
mod `2^64` (so the entry exists from the first accepted transaction on); and
the tracked nonce never decreases as long as it is below `2^64 - 1`. -/
theorem c8_nonce_tracker_monotone (p : TransactionProcessor) (tx : Transaction) :
    (∀ a, (alist_find p.nonce_tracker a).isSome = true →
      (alist_find (process_transaction p tx).1.nonce_tracker a).isSome = true) ∧
    (∀ l2, convert_to_l2_transaction tx = Except.ok l2 →
      (∃ sig, (process_transaction p tx).2 = Except.ok sig) →
      alist_find (process_transaction p tx).1.nonce_tracker l2.from_ =
        some (wrap64 ((alist_find p.nonce_tracker l2.from_).getD 0 + 1))) ∧
    (∀ a, (alist_find p.nonce_tracker a).getD 0 < U64_MOD - 1 →
      (alist_find p.nonce_tracker a).getD 0 ≤
        (alist_find (process_transaction p tx).1.nonce_tracker a).getD 0) := by
  rcases process_tracker_cases p tx with ⟨hkeep, e, herr⟩ | ⟨l2, hc, hok, hins⟩
  · refine ⟨fun a ha => ?_, fun l2 hconv ⟨sig, hsig⟩ => ?_, fun a ha => ?_⟩
    · rw [hkeep]; exact ha
    · rw [herr] at hsig; cases hsig
    · rw [hkeep]
  · refine ⟨fun a ha => ?_, fun l2' hconv hsig => ?_, fun a ha => ?_⟩
    · rw [hins, alist_find_insert]
      by_cases hk : l2.from_ = a
      · rw [if_pos hk]; rfl
      · rw [if_neg hk]; exact ha
    · have hl2 : l2' = l2 := by
        rw [hconv] at hc
        exact Except.ok.inj hc
      subst hl2
      rw [hins, alist_find_insert, if_pos rfl]
    · rw [hins, alist_find_insert]
      by_cases hk : l2.from_ = a
      · subst hk
        rw [if_pos rfl]
        have : (alist_find p.nonce_tracker l2.from_).getD 0 + 1 < U64_MOD := by omega
        simp only [Option.getD_some, wrap64, Nat.mod_eq_of_lt this]
        omega
      · rw [if_neg hk]

/-- C8 witness: on a fresh processor, an accepted transaction from `pkA`
creates the tracker entry and sets it to 0 + 1 = 1. -/
theorem c8_witness :
    alist_find (process_transaction p0 txA).1.nonce_tracker pkA = some 1 := by
  obtain ⟨-, hacc, -⟩ := c8_nonce_tracker_monotone p0 txA
  have h := hacc l2A rfl ⟨"sigA", rfl⟩
  exact h.trans (by decide)

theorem stepA_run (p : TransactionProcessor) :
    (stepA p).nonce_tracker =
      alist_insert p.nonce_tracker pkA
        (wrap64 ((alist_find p.nonce_tracker pkA).getD 0 + 1)) := by
  rcases process_tracker_cases p txA with ⟨hkeep, e, herr⟩ | ⟨l2, hc, hok, hins⟩
  · have : (process_transaction p txA).2 = Except.ok "sigA" := by
      have hval : validate_transaction p txA = Except.ok () :=
        validate_transaction_ok p txA rfl
      have hconv : convert_to_l2_transaction txA = Except.ok l2A := rfl
      unfold process_transaction
      rw [hval, hconv]
      rfl
    rw [this] at herr
    cases herr
  · have hl2 : l2 = l2A := by
      have hconv : convert_to_l2_transaction txA = Except.ok l2A := rfl
      rw [hconv] at hc
      exact (Except.ok.inj hc).symm
    subst hl2
    exact hins

theorem stepA_iter (k : Nat) :
    (stepA^[k + 1] p0).nonce_tracker = [(pkA, (k + 1) % U64_MOD)] := by
  induction k with
  | zero =>
    rw [Function.iterate_one, stepA_run]
    rfl
  | succ k ih =>
    rw [Function.iterate_succ_apply', stepA_run, ih]
    have hmod : ((k + 1) % U64_MOD + 1) % U64_MOD = (k + 1 + 1) % U64_MOD := by
      conv_rhs => rw [Nat.add_mod]
      rw [Nat.mod_eq_of_lt (show (1 : Nat) < U64_MOD by norm_num [U64_MOD])]
    simp [alist_find, alist_insert, wrap64, hmod]

/-- C8 counterexample: the tracked nonce is a wrapping `u64` counter, so after
`2^64 - 1` accepted transactions from `pkA` the entry holds `2^64 - 1`, and the
next accepted transaction wraps it to 0 — a strict decrease, refuting "never
decreases" over arbitrary call sequences. -/
theorem c8_counterexample_nonce_wraps :
    (stepA^[U64_MOD - 1] p0).nonce_tracker = [(pkA, U64_MOD - 1)] ∧
    (stepA^[U64_MOD] p0).nonce_tracker = [(pkA, 0)] ∧
    (0 : Nat) < U64_MOD - 1 := by
  have h1 := stepA_iter (U64_MOD - 2)
  have h2 := stepA_iter (U64_MOD - 1)
  have e1 : U64_MOD - 2 + 1 = U64_MOD - 1 := by norm_num [U64_MOD]
  have e2 : U64_MOD - 1 + 1 = U64_MOD := by norm_num [U64_MOD]
  rw [e1] at h1
  rw [e2] at h2
  rw [Nat.mod_eq_of_lt (by norm_num [U64_MOD])] at h1
  rw [Nat.mod_self] at h2
  exact ⟨h1, h2, by norm_num [U64_MOD]⟩

/-- C9 (amended): a self-transfer of at most the account's balance succeeds
and leaves the account at (balance + amount) reduced mod `2^64` — exactly
balance + amount whenever that sum fits in a `u64` — because both updates
start from the same pre-transfer snapshot and the credit lands last. -/
theorem c9_self_transfer_amended (s : StateManager) (pk : Pubkey) (amount : Nat)
    (hbal : amount ≤ ((stored_account s pk).getD defaultAccount).lamports) :
    (transfer_lamports s pk pk amount).2 = Except.ok () ∧
    ((stored_account (transfer_lamports s pk pk amount).1 pk).getD defaultAccount).lamports
      = wrap64 (((stored_account s pk).getD defaultAccount).lamports + amount) ∧
    (((stored_account s pk).getD defaultAccount).lamports + amount < U64_MOD →
      ((stored_account (transfer_lamports s pk pk amount).1 pk).getD defaultAccount).lamports
        = ((stored_account s pk).getD defaultAccount).lamports + amount) := by
  simp only [transfer_lamports]
  rw [get_account_fst, if_neg (by omega)]
  rw [get_account_fst, get_account_view]
  rw [update_account_true_ok]
  dsimp only
  rw [update_account_true_ok]
  refine ⟨rfl, ?_, ?_⟩
  · rw [update_account_view, if_pos rfl]
    rfl
  · intro hlt
    rw [update_account_view, if_pos rfl]
    simp only [Option.getD_some, wrap64]
    exact Nat.mod_eq_of_lt hlt

/-- C9 witness: transferring 4 of 10 lamports from `pkA` to itself succeeds
and leaves the account at 14 lamports. -/
theorem c9_witness :
    (transfer_lamports smSelf pkA pkA 4).2 = Except.ok () ∧
    ((stored_account (transfer_lamports smSelf pkA pkA 4).1 pkA).getD defaultAccount).lamports
      = 14 := by
  obtain ⟨hok, hwrap, hexact⟩ := c9_self_transfer_amended smSelf pkA 4 (by decide)
  refine ⟨hok, ?_⟩
  rw [hexact (by decide)]
  decide

/-- C9 counterexample: with `2^63` lamports stored, a self-transfer of `2^63`
(an amount not exceeding the balance) is accepted but leaves 0 lamports, not
balance + amount = `2^64`: the credit wrapped. -/
theorem c9_counterexample_overflow :
    2 ^ 63 ≤ ((stored_account smBig pkA).getD defaultAccount).lamports ∧
    (transfer_lamports smBig pkA pkA (2 ^ 63)).2 = Except.ok () ∧
    ((stored_account (transfer_lamports smBig pkA pkA (2 ^ 63)).1 pkA).getD
      defaultAccount).lamports = 0 ∧
    (0 : Nat) ≠ 2 ^ 63 + 2 ^ 63 := by
  refine ⟨by decide, rfl, by decide, by norm_num⟩

end TinyRollup
